import Mathlib

/-!
Shallow embedding of the detection-to-track reconciliation and trail-state
engine of `yolov8_segmentation_tracking.py`.

Modelling conventions:
* Python floats (confidences) are modelled as rationals `ℚ`; `np.isclose`
  is modelled by its documented formula `|a - b| ≤ atol + rtol * |b|` with
  the NumPy defaults `rtol = 1e-5`, `atol = 1e-8`.
* Python code that can raise (list indexing out of range) is modelled with
  `Option`: `none` is the raised exception.
* The external detector and tracker are black boxes: a frame's input to the
  core is the detection list the detector produced and, when a tracker is
  configured, the track list `tracker.update_tracks` returned.
-/

namespace Yolo

/-- Bounding box in integer pixel coordinates, as built by `result_to_json`
(`int(...)` truncation of the model output). -/
structure Bbox where
  x_min : Int
  y_min : Int
  x_max : Int
  y_max : Int
deriving DecidableEq, Repr

/-- One entry of `result_list_json` before any tracking information is
attached: class id, class name, confidence and bounding box. -/
structure Detection where
  class_id : Int
  className : String
  confidence : ℚ
  bbox : Bbox
deriving DecidableEq, Repr

/-- One track returned by `tracker.update_tracks`: its identity
(`int(track.track_id)`) and the originating detection confidence
(`track.det_conf`, which is `None` for tracks not confirmed this frame). -/
structure Track where
  track_id : Int
  det_conf : Option ℚ
deriving DecidableEq, Repr

/-- A `result_list_json` entry after the tracking scan: the detection plus
the optional `object_id` field. -/
structure IdentifiedDetection where
  det : Detection
  object_id : Option Int
deriving DecidableEq, Repr

/-- NumPy default relative tolerance of `np.isclose`. -/
def rtol : ℚ := 1 / 100000

/-- NumPy default absolute tolerance of `np.isclose`. -/
def atol : ℚ := 1 / 100000000

/-- `np.isclose(a, b)` with default tolerances: `|a - b| <= atol + rtol*|b|`. -/
def isclose (a b : ℚ) : Bool := |a - b| ≤ atol + rtol * |b|

/-- The per-track test of the scan in `result_to_json` (line 110-111):
`track.det_conf is not None and np.isclose(track.det_conf, confidence)`. -/
def matchesTrack (conf : ℚ) (t : Track) : Bool :=
  match t.det_conf with
  | none => false
  | some c => isclose c conf

/-- The scan of `result_to_json` (lines 105-116) for one detection: the first
track in list order whose `det_conf` is present and `np.isclose` to the
detection's confidence yields the attached `object_id`; otherwise none. -/
def resolveDetection (tracks : List Track) (conf : ℚ) : Option Int :=
  (tracks.find? (matchesTrack conf)).map Track.track_id

/-- `result_to_json` (lines 57-117), restricted to the fields the claims are
about: with no tracker, no detection carries an `object_id`; with a tracker,
each detection is independently matched against the returned track list. -/
def result_to_json (dets : List Detection) (tracker : Option (List Track)) :
    List IdentifiedDetection :=
  match tracker with
  | none => dets.map (fun d => ⟨d, none⟩)
  | some tracks => dets.map (fun d => ⟨d, resolveDetection tracks d.confidence⟩)

/-- A trail point: an integer pixel center. -/
abbrev Point := Int × Int

/-- The trail store: the Python list `centers` of per-identity deques,
each deque a list of points, oldest first. -/
abbrev Centers := List (List Point)

/-- `deque(maxlen=30)`: the capacity of every per-identity trail. -/
def trailCapacity : Nat := 30

/-- The fixed preallocation `[deque(maxlen=30) for _ in range(10000)]`. -/
def numSlots : Nat := 10000

/-- The freshly allocated trail store (lines 322 and 384). -/
def initCenters : Centers := List.replicate numSlots []

/-- Python list indexing semantics: `xs[i]` for `0 ≤ i < len` and negative
wrap-around `xs[i] = xs[len + i]` for `-len ≤ i < 0`; anything else raises
`IndexError`, modelled as `none`. -/
def pyIndex (n : Nat) (i : Int) : Option Nat :=
  if 0 ≤ i then
    if i.toNat < n then some i.toNat else none
  else
    if (-i).toNat ≤ n then some (n - (-i).toNat) else none

/-- Python `int(x)` truncation toward zero of the exact half of an integer,
modelling `int((a + b) / 2)`. -/
def truncHalf (n : Int) : Int :=
  if 0 ≤ n then ((n.toNat / 2 : Nat) : Int) else -(((-n).toNat / 2 : Nat) : Int)

/-- The bounding-box center computed in `view_result_default` (lines 220-223):
`(int((x_min + x_max) / 2), int((y_min + y_max) / 2))`. -/
def bboxCenter (b : Bbox) : Point :=
  (truncHalf (b.x_min + b.x_max), truncHalf (b.y_min + b.y_max))

/-- `deque(maxlen=30).append(p)`: append `p`; when the deque is at capacity
the oldest points are discarded from the left so the length stays `30`. -/
def dequeAppend (q : List Point) (p : Point) : List Point :=
  if trailCapacity ≤ q.length then (q.drop (q.length + 1 - trailCapacity)) ++ [p]
  else q ++ [p]

/-- `centers[object_id].append(center)` (line 219): index the slot list with
Python semantics (failure is an `IndexError`) and append to that deque. -/
def updateCenters (cs : Centers) (oid : Int) (p : Point) : Option Centers :=
  match pyIndex cs.length oid with
  | none => none
  | some k => some (cs.set k (dequeAppend (cs.getD k []) p))

/-- Reading a trail, `centers[identity]`, as done by the rendering loop
(lines 225-238); out-of-range identities raise. -/
def trail_of (cs : Centers) (oid : Int) : Option (List Point) :=
  (pyIndex cs.length oid).map (fun k => cs.getD k [])

/-- The trail-store mutation performed by `view_result_default`
(lines 218-224): for each result in order, when it carries an `object_id`,
append its bounding-box center to that identity's deque. -/
def viewUpdateCenters (rlj : List IdentifiedDetection) (cs : Centers) :
    Option Centers :=
  rlj.foldlM (fun acc r =>
    match r.object_id with
    | none => some acc
    | some oid => updateCenters acc oid (bboxCenter r.det.bbox)) cs

/-- One frame through `image_processing` (lines 242-260): build
`result_list_json` (with the tracker's track list when configured), then run
the viewer's trail update; returns the annotated detections and the new
trail store, or `none` when the trail update raised. -/
def processFrame (dets : List Detection) (tracker : Option (List Track))
    (cs : Centers) : Option (List IdentifiedDetection × Centers) :=
  (viewUpdateCenters (result_to_json dets tracker) cs).map
    (fun cs2 => (result_to_json dets tracker, cs2))

/-- A whole sequence of frames, threading the trail store (the per-frame loop
of `video_processing`, lines 302-307); each frame is the detector output
paired with the tracker's track list for that frame (or `none` when no
tracker is configured). -/
def processSeq (frames : List (List Detection × Option (List Track)))
    (cs : Centers) : Option Centers :=
  frames.foldlM (fun acc fr => (processFrame fr.1 fr.2 acc).map Prod.snd) cs

/-- `ObjectDetector.on_stop` (lines 331-333) restricted to the trail store:
`self.centers.clear()` empties the Python list of slots itself. -/
def on_stop (_cs : Centers) : Centers := []

/-- The bounded-memory invariant: every per-identity trail holds at most
`trailCapacity` points. -/
def trailsBounded (cs : Centers) : Prop := ∀ q ∈ cs, q.length ≤ trailCapacity

/-- The detection of the spec's concrete scenario, frame 1:
`class "car", confidence 0.91, bbox (10, 10, 50, 50)`. -/
def demoDet1 : Detection := ⟨2, "car", 91/100, ⟨10, 10, 50, 50⟩⟩

/-- The detection of the spec's concrete scenario, later frames:
`confidence 0.93, bbox (20, 20, 60, 60)`. -/
def demoDet2 : Detection := ⟨2, "car", 93/100, ⟨20, 20, 60, 60⟩⟩

/-- The track of the concrete scenario, frame 1: identity 7, matched
detection confidence 0.91. -/
def demoTrack1 : Track := ⟨7, some (91/100)⟩

/-- The track of the concrete scenario, later frames: identity 7, matched
detection confidence 0.93. -/
def demoTrack2 : Track := ⟨7, some (93/100)⟩

/-- Frame 1 of the concrete scenario. -/
def demoFrame1 : List Detection × Option (List Track) := ([demoDet1], some [demoTrack1])

/-- The repeated later frame of the concrete scenario. -/
def demoFrame2 : List Detection × Option (List Track) := ([demoDet2], some [demoTrack2])


/-- JSON whitespace characters. -/
def jsonWs (c : Char) : Bool := c = ' ' || c = '\n' || c = '\t' || c = '\r'

/-- Drop leading JSON whitespace. -/
def skipWs : List Char → List Char
  | [] => []
  | c :: cs => if jsonWs c then skipWs cs else c :: cs

/-- Characters that may occur in a (leniently scanned) JSON number. -/
def isNumChar (c : Char) : Bool :=
  c.isDigit || c = '-' || c = '+' || c = '.' || c = 'e' || c = 'E'

/-- Scan the remainder of a JSON string literal after its opening quote. -/
def parseStringTail : Nat → List Char → Option (List Char)
  | 0, _ => none
  | _ + 1, [] => none
  | fuel + 1, c :: cs =>
    if c = '"' then some cs
    else if c = '\\' then
      match cs with
      | [] => none
      | _ :: cs2 => parseStringTail fuel cs2
    else parseStringTail fuel cs

/-- Parsing mode of the JSON scanner: a value, the tail of an array after
its first element position, or the members of an object. -/
inductive PMode where
  | value : PMode
  | elems : PMode
  | members : PMode

/-- A lenient recursive-descent JSON scanner (fuel-bounded): consumes one
value / array tail / object tail and returns the unconsumed input. It
accepts a superset of JSON (numbers are scanned loosely), which only makes
rejection results stronger. -/
def parseJ : Nat → PMode → List Char → Option (List Char)
  | 0, _, _ => none
  | fuel + 1, PMode.value, cs =>
    match skipWs cs with
    | [] => none
    | c :: rest =>
      if c = '[' then
        match skipWs rest with
        | ']' :: rest2 => some rest2
        | rest2 => parseJ fuel PMode.elems rest2
      else if c = '\x7b' then
        match skipWs rest with
        | '\x7d' :: rest2 => some rest2
        | rest2 => parseJ fuel PMode.members rest2
      else if c = '"' then parseStringTail (rest.length + 1) rest
      else if List.isPrefixOf ['t', 'r', 'u', 'e'] (c :: rest) then
        some ((c :: rest).drop 4)
      else if List.isPrefixOf ['f', 'a', 'l', 's', 'e'] (c :: rest) then
        some ((c :: rest).drop 5)
      else if List.isPrefixOf ['n', 'u', 'l', 'l'] (c :: rest) then
        some ((c :: rest).drop 4)
      else
        match (c :: rest).takeWhile isNumChar with
        | [] => none
        | numcs => some ((c :: rest).drop numcs.length)
  | fuel + 1, PMode.elems, cs =>
    match parseJ fuel PMode.value cs with
    | none => none
    | some rest =>
      match skipWs rest with
      | ']' :: rest2 => some rest2
      | ',' :: rest2 => parseJ fuel PMode.elems rest2
      | _ => none
  | fuel + 1, PMode.members, cs =>
    match skipWs cs with
    | '"' :: rest =>
      match parseStringTail (rest.length + 1) rest with
      | none => none
      | some rest2 =>
        match skipWs rest2 with
        | ':' :: rest3 =>
          match parseJ fuel PMode.value rest3 with
          | none => none
          | some rest4 =>
            match skipWs rest4 with
            | '\x7d' :: rest5 => some rest5
            | ',' :: rest5 => parseJ fuel PMode.members rest5
            | _ => none
        | _ => none
    | _ => none

/-- A string is a single well-formed JSON value (up to the scanner's
leniency) with nothing but whitespace after it. -/
def isJsonValue (s : String) : Bool :=
  match parseJ (s.length + 2) PMode.value s.toList with
  | none => false
  | some rest => (skipWs rest).isEmpty

/-- The JSON file written by `video_processing` (lines 293-308) as a
function of each frame's `json.dump` output: `json_file.write("[\n")`, then
for EVERY frame the dump followed by `json_file.write(",\n")`, then
`json_file.write("]")`. -/
def videoJsonFile (frameDumps : List String) : String :=
  "[\n" ++ String.join (frameDumps.map (fun s => s ++ ",\n")) ++ "]"

end Yolo

unseal Rat.add Rat.sub Rat.mul Rat.inv Rat.ofScientific

namespace Yolo

theorem pyIndex_lt {n : Nat} {i : Int} {k : Nat} (h : pyIndex n i = some k) : k < n := by
  unfold pyIndex at h
  by_cases h0 : 0 ≤ i
  · simp only [h0, if_true] at h
    by_cases h1 : i.toNat < n
    · simp only [h1, if_true, Option.some.injEq] at h
      omega
    · simp [h1] at h
  · simp only [h0, if_false] at h
    by_cases h1 : (-i).toNat ≤ n
    · simp only [h1, if_true, Option.some.injEq] at h
      have : 1 ≤ (-i).toNat := by omega
      omega
    · simp [h1] at h

theorem length_dequeAppend_le (q : List Point) (p : Point)
    (h : q.length ≤ trailCapacity) : (dequeAppend q p).length ≤ trailCapacity := by
  unfold dequeAppend
  have hc : trailCapacity = 30 := rfl
  split
  · rw [List.length_append, List.length_drop, List.length_singleton]
    omega
  · rw [List.length_append, List.length_singleton]
    omega

theorem dequeAppend_at_capacity (q : List Point) (p : Point)
    (h : q.length = trailCapacity) : dequeAppend q p = q.tail ++ [p] := by
  unfold dequeAppend
  rw [if_pos (le_of_eq h.symm), h]
  have hc : trailCapacity = 30 := rfl
  have h1 : trailCapacity + 1 - trailCapacity = 1 := by omega
  rw [h1, List.drop_one]

theorem updateCenters_nat (cs : Centers) (k : Nat) (hk : k < cs.length) (p : Point) :
    updateCenters cs (k : Int) p = some (cs.set k (dequeAppend (cs.getD k []) p)) := by
  unfold updateCenters pyIndex
  simp [hk]

theorem trail_of_nat (cs : Centers) (k : Nat) (hk : k < cs.length) :
    trail_of cs (k : Int) = some (cs.getD k []) := by
  unfold trail_of pyIndex
  simp [hk]

theorem trailsBounded_update {cs cs' : Centers} {oid : Int} {p : Point}
    (h : trailsBounded cs) (hu : updateCenters cs oid p = some cs') :
    trailsBounded cs' := by
  unfold updateCenters at hu
  cases hpi : pyIndex cs.length oid with
  | none => rw [hpi] at hu; exact absurd hu (by simp)
  | some k =>
    rw [hpi] at hu
    have hk : k < cs.length := pyIndex_lt hpi
    simp only [Option.some.injEq] at hu
    subst hu
    intro q hq
    rcases List.mem_or_eq_of_mem_set hq with hmem | heq
    · exact h q hmem
    · subst heq
      apply length_dequeAppend_le
      have : cs.getD k [] = cs[k] := by
        simp [List.getD_eq_getElem?_getD, List.getElem?_eq_getElem hk]
      rw [this]
      exact h _ (List.getElem_mem hk)

theorem trailsBounded_viewUpdate {rlj : List IdentifiedDetection} {cs cs' : Centers}
    (h : trailsBounded cs) (hu : viewUpdateCenters rlj cs = some cs') :
    trailsBounded cs' := by
  induction rlj generalizing cs with
  | nil =>
    unfold viewUpdateCenters at hu
    simp only [List.foldlM, pure, Option.some.injEq] at hu
    subst hu; exact h
  | cons r rs ih =>
    unfold viewUpdateCenters at hu
    rw [List.foldlM_cons] at hu
    cases hr : r.object_id with
    | none =>
      rw [hr] at hu
      simp only [Option.bind_eq_bind, Option.some_bind] at hu
      exact ih h hu
    | some oid =>
      rw [hr] at hu
      simp only [Option.bind_eq_bind] at hu
      cases hstep : updateCenters cs oid (bboxCenter r.det.bbox) with
      | none => rw [hstep] at hu; exact absurd hu (by simp)
      | some cs1 =>
        rw [hstep] at hu
        simp only [Option.some_bind] at hu
        exact ih (trailsBounded_update h hstep) hu

theorem trailsBounded_processSeq
    {frames : List (List Detection × Option (List Track))} {cs cs' : Centers}
    (h : trailsBounded cs) (hu : processSeq frames cs = some cs') :
    trailsBounded cs' := by
  induction frames generalizing cs with
  | nil =>
    unfold processSeq at hu
    simp only [List.foldlM, pure, Option.some.injEq] at hu
    subst hu; exact h
  | cons fr frs ih =>
    unfold processSeq at hu
    rw [List.foldlM_cons] at hu
    simp only [Option.bind_eq_bind] at hu
    cases hstep : processFrame fr.1 fr.2 cs with
    | none => rw [hstep] at hu; exact absurd hu (by simp)
    | some res =>
      rw [hstep] at hu
      simp only [Option.map_some', Option.some_bind] at hu
      unfold processFrame at hstep
      cases hv : viewUpdateCenters (result_to_json fr.1 fr.2) cs with
      | none => rw [hv] at hstep; exact absurd hstep (by simp)
      | some cs1 =>
        rw [hv] at hstep
        simp only [Option.map_some', Option.some.injEq] at hstep
        have hb : trailsBounded cs1 := trailsBounded_viewUpdate h hv
        have : res.2 = cs1 := by rw [← hstep]
        rw [this] at hu
        exact ih hb hu

theorem trailsBounded_init : trailsBounded initCenters := by
  intro q hq
  rw [List.eq_of_mem_replicate hq]
  simp [trailCapacity]

theorem viewUpdateCenters_of_none {rlj : List IdentifiedDetection} (cs : Centers)
    (h : ∀ r ∈ rlj, r.object_id = none) : viewUpdateCenters rlj cs = some cs := by
  induction rlj generalizing cs with
  | nil => rfl
  | cons r rs ih =>
    unfold viewUpdateCenters
    rw [List.foldlM_cons, h r (List.mem_cons_self r rs)]
    simp only [Option.bind_eq_bind, Option.some_bind]
    exact ih cs (fun x hx => h x (List.mem_cons_of_mem r hx))

theorem resolveDetection_sound {tracks : List Track} {conf : ℚ} {id : Int}
    (h : resolveDetection tracks conf = some id) :
    ∃ t ∈ tracks, ∃ c : ℚ,
      t.det_conf = some c ∧ isclose c conf = true ∧ t.track_id = id := by
  unfold resolveDetection at h
  rcases Option.map_eq_some'.mp h with ⟨t, hfind, htid⟩
  refine ⟨t, List.mem_of_find?_eq_some hfind, ?_⟩
  have hm := List.find?_some hfind
  unfold matchesTrack at hm
  cases hdc : t.det_conf with
  | none => rw [hdc] at hm; exact absurd hm (by simp)
  | some c => rw [hdc] at hm; exact ⟨c, rfl, hm, htid⟩

theorem pyIndex_zero (oid : Int) : pyIndex 0 oid = none := by
  unfold pyIndex
  split_ifs <;> first | rfl | omega

theorem getD_initCenters (k : Nat) (hk : k < numSlots) : initCenters.getD k [] = [] := by
  rw [List.getD_eq_getElem?_getD]
  unfold initCenters
  rw [List.getElem?_replicate]
  simp [hk]

/-- C5: with no tracker configured, `result_to_json` attaches no identity to
any detection, the frame is processed without failure, and the trail store
is returned unchanged. -/
theorem trackerless_mode (dets : List Detection) (cs : Centers) :
    result_to_json dets none = dets.map (fun d => ⟨d, none⟩) ∧
    ((result_to_json dets none).all fun r => r.object_id.isNone) = true ∧
    processFrame dets none cs = some (dets.map (fun d => ⟨d, none⟩), cs) := by
  have h1 : result_to_json dets none = dets.map (fun d => ⟨d, none⟩) := rfl
  have hids : ∀ r ∈ result_to_json dets none, r.object_id = none := by
    rw [h1]
    intro r hr
    rcases List.mem_map.mp hr with ⟨d, _, rfl⟩
    rfl
  refine ⟨h1, ?_, ?_⟩
  · rw [List.all_eq_true]
    intro r hr
    rw [hids r hr]
    rfl
  · unfold processFrame
    rw [viewUpdateCenters_of_none cs hids]
    rw [Option.map_some']
    rw [h1]

/-- C6: with a configured tracker that returns an empty track list, every
detection stays unidentified and the frame is processed without failure. -/
theorem empty_track_list (dets : List Detection) (cs : Centers) :
    result_to_json dets (some []) = dets.map (fun d => ⟨d, none⟩) ∧
    ((result_to_json dets (some [])).all fun r => r.object_id.isNone) = true ∧
    processFrame dets (some []) cs = some (dets.map (fun d => ⟨d, none⟩), cs) := by
  have h1 : result_to_json dets (some []) = dets.map (fun d => ⟨d, none⟩) := rfl
  have hids : ∀ r ∈ result_to_json dets (some []), r.object_id = none := by
    rw [h1]
    intro r hr
    rcases List.mem_map.mp hr with ⟨d, _, rfl⟩
    rfl
  refine ⟨h1, ?_, ?_⟩
  · rw [List.all_eq_true]
    intro r hr
    rw [hids r hr]
    rfl
  · unfold processFrame
    rw [viewUpdateCenters_of_none cs hids]
    rw [Option.map_some']
    rw [h1]

/-- C1: matching soundness — whenever the `result_to_json` scan attaches an
identity to detection `i`, some track in the tracker's list carries a present
`det_conf` that is `np.isclose` to that detection's confidence, and its
`track_id` is the attached identity. -/
theorem matching_soundness (dets : List Detection) (tracks : List Track) (i : Nat)
    (d : Detection) (r : IdentifiedDetection) (id : Int)
    (hd : dets[i]? = some d)
    (hr : (result_to_json dets (some tracks))[i]? = some r)
    (hid : r.object_id = some id) :
    ∃ t ∈ tracks, ∃ c : ℚ,
      t.det_conf = some c ∧ isclose c d.confidence = true ∧ t.track_id = id := by
  unfold result_to_json at hr
  rw [List.getElem?_map, hd] at hr
  rw [Option.map_some'] at hr
  have hr2 : r = ⟨d, resolveDetection tracks d.confidence⟩ := by
    exact (Option.some.injEq _ _ ▸ hr).symm
  subst hr2
  exact resolveDetection_sound hid

/-- Witness for C1 at the concrete scenario input. -/
theorem matching_soundness_witness :
    ∃ t ∈ [demoTrack1], ∃ c : ℚ,
      t.det_conf = some c ∧ isclose c demoDet1.confidence = true ∧ t.track_id = 7 :=
  matching_soundness [demoDet1] [demoTrack1] 0 demoDet1 ⟨demoDet1, some 7⟩ 7
    (by decide) (by decide) (by decide)

/-- C10: a track whose `det_conf` is absent fails the scan's test and is
never the matched track, so every attached identity originates from a track
with a present `det_conf`. -/
theorem absent_conf_never_matches :
    (∀ (conf : ℚ) (t : Track), t.det_conf = none → matchesTrack conf t = false) ∧
    (∀ (tracks : List Track) (conf : ℚ) (id : Int),
      resolveDetection tracks conf = some id →
      ∃ t ∈ tracks, ∃ c : ℚ,
        t.det_conf = some c ∧ isclose c conf = true ∧ t.track_id = id) := by
  constructor
  · intro conf t h
    unfold matchesTrack
    rw [h]
  · intro tracks conf id hid
    exact resolveDetection_sound hid

/-- Witness for C10 at a concrete two-track list whose first track has no
`det_conf`. -/
theorem absent_conf_never_matches_witness :
    matchesTrack (1/2) ⟨3, none⟩ = false ∧
    (∃ t ∈ [(⟨3, none⟩ : Track), ⟨5, some (1/2)⟩], ∃ c : ℚ,
      t.det_conf = some c ∧ isclose c (1/2) = true ∧ t.track_id = 5) :=
  ⟨absent_conf_never_matches.1 (1/2) ⟨3, none⟩ rfl,
   absent_conf_never_matches.2 [⟨3, none⟩, ⟨5, some (1/2)⟩] (1/2) 5 (by decide)⟩

/-- C3 counterexample: two detections share confidence `0.8`; a single track
at `det_conf 0.8` with identity `5` is matched to BOTH detections of the
frame, so a track's identity is not attached to at most one detection. -/
theorem track_reuse_counterexample :
    (result_to_json
      [⟨1, "car", 4/5, ⟨0, 0, 10, 10⟩⟩, ⟨1, "car", 4/5, ⟨20, 0, 30, 10⟩⟩]
      (some [⟨5, some (4/5)⟩])).map IdentifiedDetection.object_id =
      [some 5, some 5] := by decide

/-- C3 amended: the scan resolves each detection to the FIRST track in
track-list order within tolerance; matched tracks stay available for later
detections of the same frame. -/
theorem resolve_first_match (tracks : List Track) (conf : ℚ) (id : Int)
    (h : resolveDetection tracks conf = some id) :
    ∃ k : Nat, ∃ hk : k < tracks.length,
      matchesTrack conf (tracks.get ⟨k, hk⟩) = true ∧
      (tracks.get ⟨k, hk⟩).track_id = id ∧
      ∀ j : Nat, (hj : j < k) →
        matchesTrack conf (tracks.get ⟨j, Nat.lt_trans hj hk⟩) = false := by
  induction tracks with
  | nil => exact absurd h (by simp [resolveDetection])
  | cons t ts ih =>
    unfold resolveDetection at h
    by_cases hm : matchesTrack conf t = true
    · rw [List.find?_cons_of_pos _ hm] at h
      rw [Option.map_some'] at h
      refine ⟨0, Nat.succ_pos ts.length, hm, ?_, ?_⟩
      · exact Option.some.injEq _ _ ▸ h
      · intro j hj
        exact absurd hj (Nat.not_lt_zero j)
    · have hm2 : matchesTrack conf t = false := Bool.eq_false_iff.mpr hm
      rw [List.find?_cons_of_neg _ (by simp [hm2])] at h
      rcases ih h with ⟨k, hk, h1, h2, h3⟩
      refine ⟨k + 1, Nat.succ_lt_succ hk, ?_, ?_, ?_⟩
      · rw [List.get_cons_succ]
        exact h1
      · rw [List.get_cons_succ]
        exact h2
      · intro j hj
        cases j with
        | zero => exact hm2
        | succ j2 =>
          rw [List.get_cons_succ]
          exact h3 j2 (Nat.lt_of_succ_lt_succ hj)

/-- Witness for the amended C3 at a three-track list with two in-tolerance
entries: the first in-tolerance track (index 1) is the one chosen. -/
theorem resolve_first_match_witness :
    ∃ k : Nat,
      ∃ hk : k < ([⟨3, none⟩, ⟨5, some (4/5)⟩, ⟨9, some (4/5)⟩] : List Track).length,
      matchesTrack (4/5)
        (([⟨3, none⟩, ⟨5, some (4/5)⟩, ⟨9, some (4/5)⟩] : List Track).get ⟨k, hk⟩) = true ∧
      (([⟨3, none⟩, ⟨5, some (4/5)⟩, ⟨9, some (4/5)⟩] : List Track).get ⟨k, hk⟩).track_id = 5 ∧
      ∀ j : Nat, (hj : j < k) →
        matchesTrack (4/5)
          (([⟨3, none⟩, ⟨5, some (4/5)⟩, ⟨9, some (4/5)⟩] : List Track).get
            ⟨j, Nat.lt_trans hj hk⟩) = false :=
  resolve_first_match [⟨3, none⟩, ⟨5, some (4/5)⟩, ⟨9, some (4/5)⟩] (4/5) 5 (by decide)

/-- C2: the trail store starts with every trail within capacity, every
`centers[oid].append` step preserves the bound, processing any frame
sequence from the initial store preserves it, and an append at capacity
drops exactly the oldest point and keeps the rest in order. -/
theorem bounded_trail_invariant :
    trailsBounded initCenters ∧
    (∀ (cs cs' : Centers) (oid : Int) (p : Point),
      trailsBounded cs → updateCenters cs oid p = some cs' → trailsBounded cs') ∧
    (∀ (frames : List (List Detection × Option (List Track))) (cs' : Centers),
      processSeq frames initCenters = some cs' → trailsBounded cs') ∧
    (∀ (q : List Point) (p : Point), q.length = trailCapacity →
      dequeAppend q p = q.tail ++ [p]) :=
  ⟨trailsBounded_init,
   fun _ _ _ _ h hu => trailsBounded_update h hu,
   fun _ _ hu => trailsBounded_processSeq trailsBounded_init hu,
   fun q p h => dequeAppend_at_capacity q p h⟩

/-- Witness for C2: a concrete in-bounds append step and a concrete
at-capacity FIFO eviction. -/
theorem bounded_trail_invariant_witness :
    trailsBounded [[((0 : Int), (0 : Int)), (1, 1)]] ∧
    dequeAppend (List.replicate 30 ((0 : Int), (0 : Int))) (1, 1) =
      (List.replicate 30 ((0 : Int), (0 : Int))).tail ++ [(1, 1)] :=
  ⟨bounded_trail_invariant.2.1 [[((0 : Int), (0 : Int))]] [[(0, 0), (1, 1)]] 0 (1, 1)
      (by unfold trailsBounded; decide) (by decide),
   bounded_trail_invariant.2.2.2 (List.replicate 30 ((0 : Int), (0 : Int))) (1, 1)
      (by decide)⟩

/-- C9: the trail store is a fixed preallocation of exactly 10000 slots; a
trail update at an identity of 10000 or more raises `IndexError` (modelled
as `none`), and a successful update implies the identity is below 10000. -/
theorem trail_slot_bound (cs : Centers) (h : cs.length = numSlots) (oid : Int)
    (p : Point) :
    initCenters.length = 10000 ∧
    ((10000 : Int) ≤ oid → updateCenters cs oid p = none) ∧
    (∀ cs2 : Centers, updateCenters cs oid p = some cs2 → oid < 10000) := by
  have hlen : initCenters.length = 10000 := by
    unfold initCenters
    rw [List.length_replicate]
    rfl
  have hbig : ∀ oid2 : Int, (10000 : Int) ≤ oid2 → updateCenters cs oid2 p = none := by
    intro oid2 hge
    unfold updateCenters
    rw [h]
    have hnone : pyIndex numSlots oid2 = none := by
      unfold pyIndex numSlots
      split_ifs <;> first | rfl | omega
    rw [hnone]
  refine ⟨hlen, hbig oid, ?_⟩
  intro cs2 hu
  by_contra hlt
  rw [hbig oid (by omega)] at hu
  exact Option.noConfusion hu

/-- Witness for C9: on the freshly allocated store, updating identity 10000
fails. -/
theorem trail_slot_bound_witness :
    updateCenters initCenters 10000 ((0 : Int), (0 : Int)) = none ∧
    initCenters.length = 10000 :=
  ⟨(trail_slot_bound initCenters (by unfold initCenters; rw [List.length_replicate]) 10000
      ((0 : Int), (0 : Int))).2.1 (by norm_num),
   (trail_slot_bound initCenters (by unfold initCenters; rw [List.length_replicate]) 10000
      ((0 : Int), (0 : Int))).1⟩

theorem viewUpdateCenters_nil (cs : Centers) : viewUpdateCenters [] cs = some cs := rfl

theorem viewUpdateCenters_cons_some (d : Detection) (id : Int)
    (rs : List IdentifiedDetection) (cs : Centers) :
    viewUpdateCenters (⟨d, some id⟩ :: rs) cs =
      match updateCenters cs id (bboxCenter d.bbox) with
      | none => none
      | some cs1 => viewUpdateCenters rs cs1 := by
  unfold viewUpdateCenters
  rw [List.foldlM_cons]
  dsimp only
  cases h : updateCenters cs id (bboxCenter d.bbox) <;> simp

theorem processSeq_cons (fr : List Detection × Option (List Track))
    (frs : List (List Detection × Option (List Track))) (cs : Centers) :
    processSeq (fr :: frs) cs =
      match processFrame fr.1 fr.2 cs with
      | none => none
      | some r => processSeq frs r.2 := by
  unfold processSeq
  rw [List.foldlM_cons]
  cases processFrame fr.1 fr.2 cs <;> simp

theorem processSeq_nil (cs : Centers) : processSeq [] cs = some cs := rfl

theorem processSeq_cons_pair (ds : List Detection) (tk : Option (List Track))
    (frs : List (List Detection × Option (List Track))) (cs : Centers) :
    processSeq ((ds, tk) :: frs) cs =
      match processFrame ds tk cs with
      | none => none
      | some r => processSeq frs r.2 := processSeq_cons (ds, tk) frs cs

theorem processSeq_cons_demo1 (frs : List (List Detection × Option (List Track)))
    (cs : Centers) :
    processSeq (demoFrame1 :: frs) cs =
      match processFrame [demoDet1] (some [demoTrack1]) cs with
      | none => none
      | some r => processSeq frs r.2 := processSeq_cons demoFrame1 frs cs

theorem processSeq_cons_demo2 (frs : List (List Detection × Option (List Track)))
    (cs : Centers) :
    processSeq (demoFrame2 :: frs) cs =
      match processFrame [demoDet2] (some [demoTrack2]) cs with
      | none => none
      | some r => processSeq frs r.2 := processSeq_cons demoFrame2 frs cs

theorem updateCenters_7 (cs : Centers) (hk : 7 < cs.length) (p : Point) :
    updateCenters cs 7 p = some (cs.set 7 (dequeAppend (cs.getD 7 []) p)) := by
  unfold updateCenters pyIndex
  rw [if_pos (by norm_num : (0 : Int) ≤ 7),
    show (7 : Int).toNat = 7 from rfl, if_pos hk]

theorem trail_of_7 (cs : Centers) (hk : 7 < cs.length) :
    trail_of cs 7 = some (cs.getD 7 []) := by
  unfold trail_of pyIndex
  rw [if_pos (by norm_num : (0 : Int) ≤ 7),
    show (7 : Int).toNat = 7 from rfl, if_pos hk]
  rfl

theorem length_set_initCenters (k : Nat) (q : List Point) :
    (initCenters.set k q).length = numSlots := by
  rw [List.length_set]
  unfold initCenters
  rw [List.length_replicate]

theorem getD_set_self_list (cs : Centers) (k : Nat) (q : List Point)
    (hk : k < cs.length) : (cs.set k q).getD k [] = q := by
  rw [List.getD_eq_getElem?_getD, List.getElem?_set_self hk]
  rfl

theorem step_demo1 (cs : Centers) (hk : 7 < cs.length) :
    processFrame [demoDet1] (some [demoTrack1]) cs =
      some ([⟨demoDet1, some 7⟩],
        cs.set 7 (dequeAppend (cs.getD 7 []) ((30 : Int), (30 : Int)))) := by
  have hres : resolveDetection [demoTrack1] demoDet1.confidence = some 7 := by decide
  have hcen : bboxCenter demoDet1.bbox = ((30 : Int), (30 : Int)) := by decide
  unfold processFrame
  have h1 : result_to_json [demoDet1] (some [demoTrack1]) = [⟨demoDet1, some 7⟩] := by
    simp only [result_to_json, List.map_cons, List.map_nil, hres]
  rw [h1, viewUpdateCenters_cons_some, hcen, updateCenters_7 cs hk]
  rfl

theorem step_demo2 (cs : Centers) (hk : 7 < cs.length) :
    processFrame [demoDet2] (some [demoTrack2]) cs =
      some ([⟨demoDet2, some 7⟩],
        cs.set 7 (dequeAppend (cs.getD 7 []) ((40 : Int), (40 : Int)))) := by
  have hres : resolveDetection [demoTrack2] demoDet2.confidence = some 7 := by decide
  have hcen : bboxCenter demoDet2.bbox = ((40 : Int), (40 : Int)) := by decide
  unfold processFrame
  have h1 : result_to_json [demoDet2] (some [demoTrack2]) = [⟨demoDet2, some 7⟩] := by
    simp only [result_to_json, List.map_cons, List.map_nil, hres]
  rw [h1, viewUpdateCenters_cons_some, hcen, updateCenters_7 cs hk]
  rfl

theorem hlen_init_7 : 7 < initCenters.length := by
  unfold initCenters
  rw [List.length_replicate]
  norm_num [numSlots]

theorem processSeq_demoFrame1 :
    processSeq [demoFrame1] initCenters =
      some (initCenters.set 7 [((30 : Int), (30 : Int))]) := by
  rw [processSeq_cons_demo1, step_demo1 initCenters hlen_init_7]
  rw [getD_initCenters 7 (by norm_num [numSlots])]
  rfl

theorem processSeq_replicate_demo2 (n : Nat) (q : List Point) :
    processSeq (List.replicate n demoFrame2) (initCenters.set 7 q) =
      some (initCenters.set 7
        ((fun r => dequeAppend r ((40 : Int), (40 : Int)))^[n] q)) := by
  induction n generalizing q with
  | zero => rfl
  | succ n ih =>
    rw [List.replicate_succ, processSeq_cons_demo2]
    rw [step_demo2 (initCenters.set 7 q)
      (by rw [length_set_initCenters]; norm_num [numSlots])]
    rw [getD_set_self_list initCenters 7 q hlen_init_7]
    rw [List.set_set]
    show processSeq (List.replicate n demoFrame2)
      (initCenters.set 7 (dequeAppend q ((40 : Int), (40 : Int)))) = _
    rw [ih (dequeAppend q ((40 : Int), (40 : Int)))]
    rw [Function.iterate_succ_apply]

/-- C4 amended: `on_stop` empties the slot list itself, so afterwards a
trail read at ANY identity fails out-of-range (rather than returning an
empty trail), a trail update fails likewise, and `on_stop` is idempotent
and safe on an already-empty store. -/
theorem reset_teardown_amended (cs : Centers) (oid : Int) (p : Point) :
    trail_of (on_stop cs) oid = none ∧
    updateCenters (on_stop cs) oid p = none ∧
    on_stop (on_stop cs) = on_stop cs := by
  refine ⟨?_, ?_, rfl⟩
  · unfold trail_of on_stop
    rw [List.length_nil, pyIndex_zero]
    rfl
  · unfold updateCenters on_stop
    rw [List.length_nil, pyIndex_zero]

/-- C4 counterexample: after processing the concrete matched frame, identity
7 has a non-empty trail; `on_stop` (`self.centers.clear()`) then empties the
slot list, and a subsequent `trail_of` read at identity 7 fails out-of-range
(`none`) instead of returning an empty trail as the claim states. -/
theorem reset_teardown_counterexample :
    processSeq [demoFrame1] initCenters =
      some (initCenters.set 7 [((30 : Int), (30 : Int))]) ∧
    trail_of (initCenters.set 7 [((30 : Int), (30 : Int))]) 7 =
      some [((30 : Int), (30 : Int))] ∧
    trail_of (on_stop (initCenters.set 7 [((30 : Int), (30 : Int))])) 7 = none := by
  refine ⟨processSeq_demoFrame1, ?_, ?_⟩
  · rw [trail_of_7 _ (by rw [length_set_initCenters]; norm_num [numSlots]),
      getD_set_self_list initCenters 7 _ hlen_init_7]
  · unfold on_stop trail_of
    rw [List.length_nil, pyIndex_zero]
    rfl

/-- C8: the spec's concrete scenario — frame 1 attaches identity 7 and the
trail of 7 becomes [(30, 30)]; the second matched frame appends (40, 40);
after frame 1 plus 30 further matched frames (31 frames total) the trail
holds exactly 30 points and the first point (30, 30) has been evicted. -/
theorem concrete_scenario :
    (result_to_json [demoDet1] (some [demoTrack1])).map
      IdentifiedDetection.object_id = [some 7] ∧
    (processSeq [demoFrame1] initCenters).bind (fun cs => trail_of cs 7) =
      some [((30 : Int), (30 : Int))] ∧
    (processSeq [demoFrame1, demoFrame2] initCenters).bind (fun cs => trail_of cs 7) =
      some [((30 : Int), (30 : Int)), (40, 40)] ∧
    (processSeq (demoFrame1 :: List.replicate 30 demoFrame2) initCenters).bind
      (fun cs => trail_of cs 7) = some (List.replicate 30 ((40 : Int), (40 : Int))) ∧
    (List.replicate 30 ((40 : Int), (40 : Int))).length = 30 ∧
    ((30 : Int), (30 : Int)) ∉ List.replicate 30 ((40 : Int), (40 : Int)) := by
  have hlen7 : ∀ q : List Point, 7 < (initCenters.set 7 q).length := fun q => by
    rw [length_set_initCenters]
    norm_num [numSlots]
  have htr : ∀ q : List Point, trail_of (initCenters.set 7 q) 7 = some q := fun q => by
    rw [trail_of_7 _ (hlen7 q), getD_set_self_list initCenters 7 q hlen_init_7]
  have h2 : processSeq [demoFrame1, demoFrame2] initCenters =
      some (initCenters.set 7 [((30 : Int), (30 : Int)), (40, 40)]) := by
    rw [processSeq_cons_demo1, step_demo1 initCenters hlen_init_7,
      getD_initCenters 7 (by norm_num [numSlots])]
    show processSeq [demoFrame2]
      (initCenters.set 7 (dequeAppend [] ((30 : Int), (30 : Int)))) = _
    rw [processSeq_cons_demo2, step_demo2 _ (hlen7 _),
      getD_set_self_list initCenters 7 _ hlen_init_7, List.set_set]
    rfl
  have h31 : processSeq (demoFrame1 :: List.replicate 30 demoFrame2) initCenters =
      some (initCenters.set 7
        ((fun r => dequeAppend r ((40 : Int), (40 : Int)))^[30]
          [((30 : Int), (30 : Int))])) := by
    rw [processSeq_cons_demo1, step_demo1 initCenters hlen_init_7,
      getD_initCenters 7 (by norm_num [numSlots])]
    show processSeq (List.replicate 30 demoFrame2)
      (initCenters.set 7 (dequeAppend [] ((30 : Int), (30 : Int)))) = _
    rw [show dequeAppend [] ((30 : Int), (30 : Int)) =
      [((30 : Int), (30 : Int))] from rfl]
    exact processSeq_replicate_demo2 30 [((30 : Int), (30 : Int))]
  have hiter : (fun r => dequeAppend r ((40 : Int), (40 : Int)))^[30]
      [((30 : Int), (30 : Int))] = List.replicate 30 ((40 : Int), (40 : Int)) := by
    decide
  refine ⟨by decide, ?_, ?_, ?_, by decide, by decide⟩
  · rw [processSeq_demoFrame1, Option.some_bind]
    exact htr _
  · rw [h2, Option.some_bind]
    exact htr _
  · rw [h31, hiter, Option.some_bind]
    exact htr _

/-- C7: `video_processing` writes `"[\n"`, then every frame's `json.dump`
output followed by `",\n"` — including after the last frame — then `"]"`.
For a one-frame video whose frame has no detections (`json.dump` emits
`"[]"`), the file contents are `"[\n[],\n]"`, which is rejected as JSON
(trailing comma before `]`), while the same contents without the trailing
comma are accepted. -/
theorem json_output_not_wellformed :
    videoJsonFile ["[]"] = "[\n[],\n]" ∧
    isJsonValue (videoJsonFile ["[]"]) = false ∧
    isJsonValue "[\n[]\n]" = true ∧
    isJsonValue "[]" = true :=
  ⟨by decide, by decide, by decide, by decide⟩

/-- Witness for the amended C4 at concrete stores and identities. -/
theorem reset_teardown_amended_witness :
    trail_of (on_stop (initCenters.set 7 [((30 : Int), (30 : Int))])) 5 = none ∧
    updateCenters (on_stop initCenters) 3 ((1 : Int), (2 : Int)) = none ∧
    on_stop (on_stop initCenters) = on_stop initCenters :=
  ⟨(reset_teardown_amended (initCenters.set 7 [((30 : Int), (30 : Int))]) 5
      ((0 : Int), (0 : Int))).1,
   (reset_teardown_amended initCenters 3 ((1 : Int), (2 : Int))).2.1,
   (reset_teardown_amended initCenters 0 ((0 : Int), (0 : Int))).2.2⟩

/-- Witness for C5 at a concrete one-detection frame. -/
theorem trackerless_mode_witness :
    processFrame [demoDet1] none initCenters =
      some ([⟨demoDet1, none⟩], initCenters) :=
  (trackerless_mode [demoDet1] initCenters).2.2

/-- Witness for C6 at a concrete one-detection frame. -/
theorem empty_track_list_witness :
    processFrame [demoDet1] (some []) initCenters =
      some ([⟨demoDet1, none⟩], initCenters) :=
  (empty_track_list [demoDet1] initCenters).2.2

end Yolo
